import Mathlib

/-!
Verification of the wildduck-nodesdk HTTP client library.

This file gives a shallow embedding of the library's request dispatcher
(`ApiClient`, the variant using the `X-Access-Token` header and the
`json`/`text`/`arraybuffer` response types) and of the resource modules
(`Users`, `Mailboxes`, `Messages`, `Addresses`) that the claims refer to,
together with theorems settling each claim.

The HTTP transport is modelled as a pure function from the outgoing request
to the response; each embedded operation returns both the list of requests
it issued and its outcome (success value or error), mirroring the promise
resolution/rejection of the TypeScript code.
-/

/-! ## Small string utilities (used by the embedding and the proofs) -/

/-- Concatenation of a list of strings.  Plain structural recursion so that
proofs can proceed by induction. -/
def strConcat : List String → String
  | [] => ""
  | s :: rest => s ++ strConcat rest

/-- Join a list of strings with a separator between consecutive elements. -/
def sepJoin (sep : String) : List String → String
  | [] => ""
  | [s] => s
  | s :: rest => s ++ sep ++ sepJoin sep rest

theorem strData_append (s t : String) : (s ++ t).data = s.data ++ t.data := by
  cases s; cases t; rfl

theorem strExt {s t : String} (h : s.data = t.data) : s = t := by
  cases s; cases t; cases h; rfl

/-! ## A model of JavaScript JSON values

JSON numbers are stored as `mantissa * 10 ^ exp10` with integer mantissa,
covering every numeric literal a JSON text can contain. -/

inductive Json where
  | null
  | bool (b : Bool)
  | num (mantissa : Int) (exp10 : Int)
  | str (s : String)
  | arr (elems : List Json)
  | obj (fields : List (String × Json))

/-- JavaScript truthiness of a JSON value (`undefined` is handled separately
as `Option.none` by the callers): `null`, `false`, `0` and `""` are falsy,
every object, array and other primitive is truthy. -/
def Json.jsTruthy : Json → Bool
  | .null => false
  | .bool b => b
  | .num m _ => m != 0
  | .str s => s != ""
  | .arr _ => true
  | .obj _ => true

/-- Escape one character for a JSON string literal, as `JSON.stringify` does. -/
def jsonEscapeChar (c : Char) : String :=
  if c = '"' then "\\\""
  else if c = '\\' then "\\\\"
  else if c = Char.ofNat 8 then "\\b"
  else if c = Char.ofNat 9 then "\\t"
  else if c = Char.ofNat 10 then "\\n"
  else if c = Char.ofNat 12 then "\\f"
  else if c = Char.ofNat 13 then "\\r"
  else if c.toNat < 32 then
    "\\u00" ++ String.singleton (if c.toNat / 16 = 0 then '0' else '1')
      ++ String.singleton (Char.ofNat (if c.toNat % 16 < 10 then 48 + c.toNat % 16 else 87 + c.toNat % 16))
  else String.singleton c

def jsonEscape (s : String) : String := strConcat (s.data.map jsonEscapeChar)

/-- Decimal rendering of a JSON number `m * 10 ^ e` (integral results are
rendered without a decimal point, as `JSON.stringify` renders them). -/
def jsonNumRender (m : Int) (e : Int) : String :=
  if e ≥ 0 then toString (m * (10 : Int) ^ e.toNat)
  else
    let digits := (10 : Int) ^ (-e).toNat
    let ip := m / digits
    let fp := (if m < 0 then -m else m) % digits
    toString ip ++ "." ++ toString fp

mutual

/-- Model of `JSON.stringify` on the JSON values above. -/
def Json.stringify : Json → String
  | .null => "null"
  | .bool true => "true"
  | .bool false => "false"
  | .num m e => jsonNumRender m e
  | .str s => "\"" ++ jsonEscape s ++ "\""
  | .arr xs => "[" ++ sepJoin "," (stringifyList xs) ++ "]"
  | .obj kvs => "\x7b" ++ sepJoin "," (stringifyFields kvs) ++ "\x7d"

def stringifyList : List Json → List String
  | [] => []
  | x :: xs => Json.stringify x :: stringifyList xs

def stringifyFields : List (String × Json) → List String
  | [] => []
  | (k, v) :: xs => ("\"" ++ jsonEscape k ++ "\":" ++ Json.stringify v) :: stringifyFields xs

end

/-! ## A model of `JSON.parse` -/

/-- JSON insignificant whitespace. -/
def jsonWs (c : Char) : Bool :=
  c = ' ' || c = Char.ofNat 9 || c = Char.ofNat 10 || c = Char.ofNat 13

def skipWs : List Char → List Char
  | [] => []
  | c :: rest => if jsonWs c then skipWs rest else c :: rest

def isDigitChar (c : Char) : Bool := '0' ≤ c && c ≤ '9'

def digitVal (c : Char) : Nat := c.toNat - 48

def hexVal (c : Char) : Option Nat :=
  if '0' ≤ c && c ≤ '9' then some (c.toNat - 48)
  else if 'a' ≤ c && c ≤ 'f' then some (c.toNat - 87)
  else if 'A' ≤ c && c ≤ 'F' then some (c.toNat - 55)
  else none

/-- Parse a maximal run of decimal digits, returning its value, the number of
digits, and the remaining input. -/
def parseDigits : List Char → Nat → Nat → (Nat × Nat × List Char)
  | c :: rest, acc, n =>
    if isDigitChar c then parseDigits rest (acc * 10 + digitVal c) (n + 1)
    else (acc, n, c :: rest)
  | [], acc, n => (acc, n, [])

/-- Parse the body of a JSON string literal (after the opening quote),
returning the accumulated characters and the input after the closing quote.
Surrogate pairs in `\u` escapes are combined; code points that are not Lean
scalar values are replaced by U+FFFD. -/
def parseStringBody : Nat → List Char → Option (List Char × List Char)
  | 0, _ => none
  | _ + 1, [] => none
  | fuel + 1, c :: rest =>
    if c = '"' then some ([], rest)
    else if c = '\\' then
      match rest with
      | [] => none
      | e :: rest2 =>
        let simpleEsc : Option Char :=
          if e = '"' then some '"'
          else if e = '\\' then some '\\'
          else if e = '/' then some '/'
          else if e = 'b' then some (Char.ofNat 8)
          else if e = 'f' then some (Char.ofNat 12)
          else if e = 'n' then some (Char.ofNat 10)
          else if e = 'r' then some (Char.ofNat 13)
          else if e = 't' then some (Char.ofNat 9)
          else none
        match simpleEsc with
        | some ch =>
          match parseStringBody fuel rest2 with
          | some (cs, rem) => some (ch :: cs, rem)
          | none => none
        | none =>
          if e = 'u' then
            match rest2 with
            | h1 :: h2 :: h3 :: h4 :: rest3 =>
              match hexVal h1, hexVal h2, hexVal h3, hexVal h4 with
              | some a, some b, some cc, some d =>
                let n := ((a * 16 + b) * 16 + cc) * 16 + d
                if 0xD800 ≤ n ∧ n ≤ 0xDBFF then
                  -- high surrogate: try to combine with a following \uXXXX
                  match rest3 with
                  | '\\' :: 'u' :: g1 :: g2 :: g3 :: g4 :: rest4 =>
                    match hexVal g1, hexVal g2, hexVal g3, hexVal g4 with
                    | some a2, some b2, some c2, some d2 =>
                      let n2 := ((a2 * 16 + b2) * 16 + c2) * 16 + d2
                      if 0xDC00 ≤ n2 ∧ n2 ≤ 0xDFFF then
                        let cp := 0x10000 + (n - 0xD800) * 0x400 + (n2 - 0xDC00)
                        match parseStringBody fuel rest4 with
                        | some (cs, rem) => some (Char.ofNat cp :: cs, rem)
                        | none => none
                      else
                        match parseStringBody fuel rest3 with
                        | some (cs, rem) => some (Char.ofNat 0xFFFD :: cs, rem)
                        | none => none
                    | _, _, _, _ =>
                      match parseStringBody fuel rest3 with
                      | some (cs, rem) => some (Char.ofNat 0xFFFD :: cs, rem)
                      | none => none
                  | _ =>
                    match parseStringBody fuel rest3 with
                    | some (cs, rem) => some (Char.ofNat 0xFFFD :: cs, rem)
                    | none => none
                else if 0xDC00 ≤ n ∧ n ≤ 0xDFFF then
                  match parseStringBody fuel rest3 with
                  | some (cs, rem) => some (Char.ofNat 0xFFFD :: cs, rem)
                  | none => none
                else
                  match parseStringBody fuel rest3 with
                  | some (cs, rem) => some (Char.ofNat n :: cs, rem)
                  | none => none
              | _, _, _, _ => none
            | _ => none
          else none
    else if c.toNat < 32 then none
    else
      match parseStringBody fuel rest with
      | some (cs, rem) => some (c :: cs, rem)
      | none => none

/-- Parse a JSON number starting at the current position (the leading
character is a digit or a minus sign), returning mantissa and decimal
exponent. -/
def parseNumber (input : List Char) : Option ((Int × Int) × List Char) :=
  let (neg, afterSign) : Bool × List Char :=
    match input with
    | '-' :: rest => (true, rest)
    | _ => (false, input)
  match afterSign with
  | c :: _ =>
    if isDigitChar c then
      -- leading zero may not be followed by more digits
      let (ipart, iDigits, afterInt) := parseDigits afterSign 0 0
      if c = '0' ∧ iDigits ≠ 1 then none
      else
        let (mant1, exp1, afterFrac) : Nat × Int × List Char :=
          match afterInt with
          | '.' :: fr =>
            let (fpart, fDigits, afterF) := parseDigits fr 0 0
            if fDigits = 0 then (ipart, 0, afterInt)
            else (ipart * 10 ^ fDigits + fpart, -(fDigits : Int), afterF)
          | _ => (ipart, 0, afterInt)
        let fracOk : Bool :=
          match afterInt with
          | '.' :: fr => (parseDigits fr 0 0).2.1 != 0
          | _ => true
        if !fracOk then none
        else
          match afterFrac with
          | e :: expRest =>
            if e = 'e' ∨ e = 'E' then
              let (esign, afterESign) : Int × List Char :=
                match expRest with
                | '+' :: r => (1, r)
                | '-' :: r => (-1, r)
                | _ => (1, expRest)
              let (epart, eDigits, afterE) := parseDigits afterESign 0 0
              if eDigits = 0 then none
              else
                some (((if neg then -(mant1 : Int) else (mant1 : Int)),
                       exp1 + esign * (epart : Int)), afterE)
            else some (((if neg then -(mant1 : Int) else (mant1 : Int)), exp1), afterFrac)
          | [] => some (((if neg then -(mant1 : Int) else (mant1 : Int)), exp1), [])
    else none
  | [] => none

mutual

/-- Fueled recursive-descent parser for one JSON value. -/
def parseVal : Nat → List Char → Option (Json × List Char)
  | 0, _ => none
  | _ + 1, [] => none
  | fuel + 1, c :: rest =>
    if c = 'n' then
      match rest with
      | 'u' :: 'l' :: 'l' :: rem => some (.null, rem)
      | _ => none
    else if c = 't' then
      match rest with
      | 'r' :: 'u' :: 'e' :: rem => some (.bool true, rem)
      | _ => none
    else if c = 'f' then
      match rest with
      | 'a' :: 'l' :: 's' :: 'e' :: rem => some (.bool false, rem)
      | _ => none
    else if c = '"' then
      match parseStringBody (rest.length + 1) rest with
      | some (cs, rem) => some (.str (String.mk cs), rem)
      | none => none
    else if c = '[' then
      match skipWs rest with
      | ']' :: rem => some (.arr [], rem)
      | other => parseElems fuel other []
    else if c = '{' then
      match skipWs rest with
      | '}' :: rem => some (.obj [], rem)
      | other => parseFields fuel other []
    else if isDigitChar c ∨ c = '-' then
      match parseNumber (c :: rest) with
      | some ((m, e), rem) => some (.num m e, rem)
      | none => none
    else none

/-- Parse the elements of a non-empty JSON array (accumulator in reverse). -/
def parseElems : Nat → List Char → List Json → Option (Json × List Char)
  | 0, _, _ => none
  | fuel + 1, input, acc =>
    match parseVal fuel (skipWs input) with
    | some (v, rem) =>
      match skipWs rem with
      | ',' :: rem2 => parseElems fuel rem2 (v :: acc)
      | ']' :: rem2 => some (.arr (v :: acc).reverse, rem2)
      | _ => none
    | none => none

/-- Parse the fields of a non-empty JSON object (accumulator in reverse). -/
def parseFields : Nat → List Char → List (String × Json) → Option (Json × List Char)
  | 0, _, _ => none
  | fuel + 1, input, acc =>
    match skipWs input with
    | '"' :: afterQuote =>
      match parseStringBody (afterQuote.length + 1) afterQuote with
      | some (kcs, afterKey) =>
        match skipWs afterKey with
        | ':' :: afterColon =>
          match parseVal fuel (skipWs afterColon) with
          | some (v, rem) =>
            match skipWs rem with
            | ',' :: rem2 => parseFields fuel rem2 ((String.mk kcs, v) :: acc)
            | '}' :: rem2 => some (.obj ((String.mk kcs, v) :: acc).reverse, rem2)
            | _ => none
          | none => none
        | _ => none
      | none => none
    | _ => none

end

/-- Model of `JSON.parse`: `none` models the `SyntaxError` rejection. -/
def jsonParse (s : String) : Option Json :=
  match parseVal (s.data.length + 1) (skipWs s.data) with
  | some (v, rem) => if (skipWs rem).isEmpty then some v else none
  | none => none

/-! ## UTF-8 encoding and decoding

`charUtf8` is the standard UTF-8 encoding of one scalar value;
`utf8DecodeReplace` is the WHATWG "UTF-8 decode" used by `Response.json()` /
`Response.text()`: malformed sequences become U+FFFD, and a leading byte
order mark is stripped. -/

def charUtf8 (c : Char) : List UInt8 :=
  let n := c.toNat
  if n < 0x80 then [UInt8.ofNat n]
  else if n < 0x800 then
    [UInt8.ofNat (0xC0 + n / 64), UInt8.ofNat (0x80 + n % 64)]
  else if n < 0x10000 then
    [UInt8.ofNat (0xE0 + n / 4096), UInt8.ofNat (0x80 + n / 64 % 64), UInt8.ofNat (0x80 + n % 64)]
  else
    [UInt8.ofNat (0xF0 + n / 262144), UInt8.ofNat (0x80 + n / 4096 % 64),
     UInt8.ofNat (0x80 + n / 64 % 64), UInt8.ofNat (0x80 + n % 64)]

def utf8Encode (s : String) : List UInt8 := (s.data.map charUtf8).flatten

/-- Bytes of an ASCII string (used to write concrete response bodies). -/
def asciiBytes (s : String) : List UInt8 := s.data.map (fun c => UInt8.ofNat c.toNat)

/-- Is `b` a UTF-8 continuation byte? -/
def isCont (b : UInt8) : Bool := 0x80 ≤ b.toNat && b.toNat ≤ 0xBF

def contVal (b : UInt8) : Nat := b.toNat - 0x80

/-- One step of the WHATWG UTF-8 decoder with replacement, driven by fuel
(the fuel is an upper bound on the number of bytes left). -/
def utf8DecodeAux : Nat → List UInt8 → List Char
  | 0, _ => []
  | _ + 1, [] => []
  | fuel + 1, b :: rest =>
    let n := b.toNat
    if n < 0x80 then Char.ofNat n :: utf8DecodeAux fuel rest
    else if 0xC2 ≤ n ∧ n ≤ 0xDF then
      match rest with
      | b2 :: rest2 =>
        if isCont b2 then
          Char.ofNat ((n - 0xC0) * 64 + contVal b2) :: utf8DecodeAux fuel rest2
        else Char.ofNat 0xFFFD :: utf8DecodeAux fuel rest
      | [] => [Char.ofNat 0xFFFD]
    else if 0xE0 ≤ n ∧ n ≤ 0xEF then
      let lo2 : Nat := if n = 0xE0 then 0xA0 else 0x80
      let hi2 : Nat := if n = 0xED then 0x9F else 0xBF
      match rest with
      | b2 :: rest2 =>
        if lo2 ≤ b2.toNat ∧ b2.toNat ≤ hi2 then
          match rest2 with
          | b3 :: rest3 =>
            if isCont b3 then
              Char.ofNat ((n - 0xE0) * 4096 + contVal b2 * 64 + contVal b3)
                :: utf8DecodeAux fuel rest3
            else Char.ofNat 0xFFFD :: utf8DecodeAux fuel rest2
          | [] => [Char.ofNat 0xFFFD]
        else Char.ofNat 0xFFFD :: utf8DecodeAux fuel rest
      | [] => [Char.ofNat 0xFFFD]
    else if 0xF0 ≤ n ∧ n ≤ 0xF4 then
      let lo2 : Nat := if n = 0xF0 then 0x90 else 0x80
      let hi2 : Nat := if n = 0xF4 then 0x8F else 0xBF
      match rest with
      | b2 :: rest2 =>
        if lo2 ≤ b2.toNat ∧ b2.toNat ≤ hi2 then
          match rest2 with
          | b3 :: rest3 =>
            if isCont b3 then
              match rest3 with
              | b4 :: rest4 =>
                if isCont b4 then
                  Char.ofNat ((n - 0xF0) * 262144 + contVal b2 * 4096
                      + contVal b3 * 64 + contVal b4) :: utf8DecodeAux fuel rest4
                else Char.ofNat 0xFFFD :: utf8DecodeAux fuel rest3
              | [] => [Char.ofNat 0xFFFD]
            else Char.ofNat 0xFFFD :: utf8DecodeAux fuel rest2
          | [] => [Char.ofNat 0xFFFD]
        else Char.ofNat 0xFFFD :: utf8DecodeAux fuel rest
      | [] => [Char.ofNat 0xFFFD]
    else Char.ofNat 0xFFFD :: utf8DecodeAux fuel rest

/-- WHATWG "UTF-8 decode": strip a leading BOM, then decode with
replacement.  This is the decoding applied by `Response.text()` and by
`Response.json()` before parsing. -/
def utf8DecodeReplace (bytes : List UInt8) : String :=
  let noBom : List UInt8 :=
    match bytes with
    | 0xEF :: 0xBB :: 0xBF :: rest => rest
    | other => other
  String.mk (utf8DecodeAux noBom.length noBom)

/-! ## URL encoders

`encodeChar`/`formUrlEncode` model the `application/x-www-form-urlencoded`
serializer used by `URLSearchParams.toString()`; `encodeURIComponent`
models the ECMAScript function of that name.  Both keep their unreserved
ASCII characters and percent-encode the UTF-8 bytes of everything else
(uppercase hexadecimal); the form serializer additionally maps a space
to `+`. -/

def hexDigitChar (n : Nat) : Char := "0123456789ABCDEF".data.getD n '0'

def hexByte (b : UInt8) : String :=
  String.singleton (hexDigitChar (b.toNat / 16)) ++ String.singleton (hexDigitChar (b.toNat % 16))

def pctEncodeBytes (bs : List UInt8) : String :=
  strConcat (bs.map (fun b => "%" ++ hexByte b))

/-- Characters `URLSearchParams.toString` leaves unescaped:
ASCII alphanumerics and `*`, `-`, `.`, `_`. -/
def isFormSafeChar (c : Char) : Bool :=
  ('0' ≤ c && c ≤ '9') || ('A' ≤ c && c ≤ 'Z') || ('a' ≤ c && c ≤ 'z')
    || c = '*' || c = '-' || c = '.' || c = '_'

def encodeChar (c : Char) : String :=
  if c = ' ' then "+"
  else if isFormSafeChar c then String.singleton c
  else pctEncodeBytes (charUtf8 c)

def formUrlEncode (s : String) : String := strConcat (s.data.map encodeChar)

/-- Characters `encodeURIComponent` leaves unescaped: ASCII alphanumerics
and `-`, `_`, `.`, `!`, `~`, `*`, `'`, `(`, `)`. -/
def isUriUnreservedChar (c : Char) : Bool :=
  ('0' ≤ c && c ≤ '9') || ('A' ≤ c && c ≤ 'Z') || ('a' ≤ c && c ≤ 'z')
    || c = '-' || c = '_' || c = '.' || c = '!' || c = '~' || c = '*'
    || c = Char.ofNat 39 || c = '(' || c = ')'

def encodeURIChar (c : Char) : String :=
  if isUriUnreservedChar c then String.singleton c
  else pctEncodeBytes (charUtf8 c)

def encodeURIComponent (s : String) : String := strConcat (s.data.map encodeURIChar)

/-! ## JavaScript objects as ordered association lists

A JavaScript object is a list of key/value pairs in insertion order with
unique keys; `objInsert` is one property write (overwrite in place, else
append), and `objMerge base extra` is the object spread
`\x7b...base, ...extra\x7d`. -/

def objInsert {α : Type} : List (String × α) → String × α → List (String × α)
  | [], kv => [kv]
  | (k', v') :: rest, (k, v) =>
    if k' = k then (k', v) :: rest else (k', v') :: objInsert rest (k, v)

def objMerge {α : Type} (base extra : List (String × α)) : List (String × α) :=
  extra.foldl objInsert base

/-! ## Query-parameter values

A value in a query-parameter object of a resource-module operation: the
TypeScript parameter types allow booleans, numbers and strings, and any
optional field may be `undefined`.  `toJsString` is the ECMAScript
ToString conversion applied by the `URLSearchParams` record constructor. -/

inductive QVal where
  | undef
  | bool (b : Bool)
  | num (n : Int)
  | str (s : String)

def QVal.toJsString : QVal → String
  | .undef => "undefined"
  | .bool true => "true"
  | .bool false => "false"
  | .num n => toString n
  | .str s => s

/-- `new URLSearchParams(record).toString()`: each key/value pair is
form-urlencoded as `key=value` and the pairs are joined with `&`, in the
order the keys appear in the record. -/
def uspToString (params : List (String × QVal)) : String :=
  sepJoin "&" (params.map (fun kv => formUrlEncode kv.1 ++ "=" ++ formUrlEncode kv.2.toJsString))

/-- Same serializer for a record whose values are already strings (used by
`ApiClient.stream`). -/
def uspStrToString (params : List (String × String)) : String :=
  sepJoin "&" (params.map (fun kv => formUrlEncode kv.1 ++ "=" ++ formUrlEncode kv.2))

/-! ## The HTTP layer -/

/-- An outgoing HTTP request as handed to `fetch`. -/
structure HttpRequest where
  method : String
  url : String
  headers : List (String × String)
  body : Option String
deriving DecidableEq

/-- An HTTP response: numeric status and raw body bytes. -/
structure HttpResponse where
  status : Nat
  body : List UInt8
deriving DecidableEq

/-- `Response.ok` of the fetch API: status in the inclusive range 200-299. -/
def HttpResponse.ok (r : HttpResponse) : Bool :=
  200 ≤ r.status && r.status ≤ 299

/-- The transport: what the network answers to a given request. -/
def Transport : Type := HttpRequest → HttpResponse

/-- The `responseType` argument of `ApiClient.get`/`ApiClient.request`:
`"json" | "text" | "arraybuffer"`. -/
inductive ResponseType where
  | json
  | text
  | arraybuffer
deriving DecidableEq

/-- A successfully decoded response body, per requested response type. -/
inductive ResponseData where
  | json (j : Json)
  | text (s : String)
  | bytes (b : List UInt8)

/-- How a call can reject.
`httpError status detail` models `new Error("HTTP <status>: " +
JSON.stringify(detail))` thrown for a non-2xx response whose body parsed
as JSON; `parseFailure` models the `SyntaxError` rejection of
`response.json()` on a body that is not valid JSON (it carries neither a
status code nor the body text as structured data). -/
inductive RequestError where
  | httpError (status : Nat) (detail : Json)
  | parseFailure

/-- The message of the thrown `Error` for an HTTP error. -/
def RequestError.message : RequestError → String
  | .httpError status detail => "HTTP " ++ toString status ++ ": " ++ detail.stringify
  | .parseFailure => "Unexpected token in JSON"

/-- Result of one dispatcher invocation: the requests that went out on the
wire (the dispatcher always issues exactly one) and the settled promise. -/
structure CallResult where
  sent : List HttpRequest
  outcome : Except RequestError ResponseData

/-! ## The request dispatcher (`src/utils/ApiClient.ts`, the
`X-Access-Token` variant with `responseType` support) -/

/-- The two configuration fields of the dispatcher. -/
structure ApiClient where
  apiKey : String
  apiUrl : String
deriving DecidableEq

/-- `apiUrl.endsWith("/")` — the last character is a slash. -/
def strEndsWithSlash (s : String) : Bool :=
  match s.data.getLast? with
  | some c => c = '/'
  | none => false

/-- `apiUrl.slice(0, -1)` — drop the last character. -/
def strDropLast (s : String) : String := String.mk s.data.dropLast

/-- The constructor: store the key verbatim and the URL with a single
trailing slash stripped.  No validation, no network call. -/
def ApiClient.create (apiKey apiUrl : String) : ApiClient :=
  { apiKey := apiKey
    apiUrl := if strEndsWithSlash apiUrl then strDropLast apiUrl else apiUrl }

/-- The fixed default headers attached to every request. -/
def ApiClient.defaultHeaders (c : ApiClient) : List (String × String) :=
  [("Content-Type", "application/json"), ("X-Access-Token", c.apiKey)]

/-- The request constructed by `ApiClient.request` before `fetch`:
URL is base concatenated with the endpoint, headers are the defaults
spread-merged with the caller's extra headers, and the body is the JSON
serialization of `body` when `body` is truthy. -/
def ApiClient.buildRequest (c : ApiClient) (method endpoint : String)
    (body : Option Json) (headers : List (String × String)) : HttpRequest :=
  { method := method
    url := c.apiUrl ++ endpoint
    headers := objMerge c.defaultHeaders headers
    body :=
      match body with
      | some j => if j.jsTruthy then some j.stringify else none
      | none => none }

/-- Settle the response exactly as the body of `ApiClient.request` does:
non-2xx responses become errors (parsing the body as JSON for the error
detail; an unparsable body rejects with the JSON parse failure), and 2xx
responses are decoded according to the requested response type. -/
def ApiClient.settle (resp : HttpResponse) (responseType : ResponseType) :
    Except RequestError ResponseData :=
  if resp.ok then
    match responseType with
    | .arraybuffer => .ok (.bytes resp.body)
    | .text => .ok (.text (utf8DecodeReplace resp.body))
    | .json =>
      match jsonParse (utf8DecodeReplace resp.body) with
      | some j => .ok (.json j)
      | none => .error .parseFailure
  else
    match jsonParse (utf8DecodeReplace resp.body) with
    | some j => .error (.httpError resp.status j)
    | none => .error .parseFailure

/-- `ApiClient.request`: build the request, issue it once, settle it. -/
def ApiClient.request (c : ApiClient) (method endpoint : String)
    (body : Option Json) (headers : List (String × String))
    (responseType : ResponseType) (transport : Transport) : CallResult :=
  let req := c.buildRequest method endpoint body headers
  { sent := [req], outcome := ApiClient.settle (transport req) responseType }

/-- `ApiClient.get(endpoint, headers = \x7b\x7d, responseType = "json")`. -/
def ApiClient.get (c : ApiClient) (endpoint : String)
    (headers : List (String × String)) (responseType : ResponseType)
    (transport : Transport) : CallResult :=
  c.request "GET" endpoint none headers responseType transport

/-- `ApiClient.put(endpoint, body, headers = \x7b\x7d)`. -/
def ApiClient.put (c : ApiClient) (endpoint : String) (body : Option Json)
    (headers : List (String × String)) (transport : Transport) : CallResult :=
  c.request "PUT" endpoint body headers .json transport

/-- `ApiClient.post(endpoint, body, headers = \x7b\x7d)`. -/
def ApiClient.post (c : ApiClient) (endpoint : String) (body : Option Json)
    (headers : List (String × String)) (transport : Transport) : CallResult :=
  c.request "POST" endpoint body headers .json transport

/-- `ApiClient.delete(endpoint, headers = \x7b\x7d)`. -/
def ApiClient.del (c : ApiClient) (endpoint : String)
    (headers : List (String × String)) (transport : Transport) : CallResult :=
  c.request "DELETE" endpoint none headers .json transport

/-- The URL opened by `ApiClient.stream(endpoint, params?)`. -/
def ApiClient.streamUrl (c : ApiClient) (endpoint : String)
    (params : Option (List (String × String))) : String :=
  let query :=
    match params with
    | some p => "?" ++ uspStrToString p
    | none => ""
  c.apiUrl ++ endpoint ++ query

/-! ## Resource modules -/

/-- Query string of `params ? "?" + new URLSearchParams(params) : ""`:
a provided object (even an empty one) always contributes a `?`. -/
def optionalQuery (params : Option (List (String × QVal))) : String :=
  match params with
  | some p => "?" ++ uspToString p
  | none => ""

/-- `src/api/Users.ts`. -/
structure Users where
  client : ApiClient

/-- `Users.listUsers(params?)`: the query string is serialized first and the
`?` is added only when that string is non-empty. -/
def Users.listUsers (u : Users) (params : Option (List (String × QVal)))
    (transport : Transport) : CallResult :=
  let query :=
    match params with
    | some p => uspToString p
    | none => ""
  u.client.get ("/users" ++ (if query ≠ "" then "?" ++ query else "")) [] .json transport

/-- `src/api/Mailboxes.ts`. -/
structure Mailboxes where
  client : ApiClient

/-- `Mailboxes.listMailboxes(userId, params?)`. -/
def Mailboxes.listMailboxes (m : Mailboxes) (userId : String)
    (params : Option (List (String × QVal))) (transport : Transport) : CallResult :=
  m.client.get ("/users/" ++ userId ++ "/mailboxes" ++ optionalQuery params) [] .json transport

/-- `src/api/Messages.ts`. -/
structure Messages where
  client : ApiClient

/-- `Messages.listMessages(userId, mailboxId, params?)`. -/
def Messages.listMessages (m : Messages) (userId mailboxId : String)
    (params : Option (List (String × QVal))) (transport : Transport) : CallResult :=
  m.client.get ("/users/" ++ userId ++ "/mailboxes/" ++ mailboxId ++ "/messages"
    ++ optionalQuery params) [] .json transport

/-- `Messages.getMessageSource(userId, mailboxId, messageId, params?)`:
requests the message source with the `arraybuffer` response type. -/
def Messages.getMessageSource (m : Messages) (userId mailboxId : String)
    (messageId : Int) (params : Option (List (String × QVal)))
    (transport : Transport) : CallResult :=
  m.client.get ("/users/" ++ userId ++ "/mailboxes/" ++ mailboxId ++ "/messages/"
    ++ toString messageId ++ "/message.eml" ++ optionalQuery params) [] .arraybuffer transport

/-- Node's `Buffer.from(arrayBuffer)`: a view over the same bytes — the byte
content is preserved. -/
def bufferFrom (b : List UInt8) : List UInt8 := b

/-- `Messages.downloadAttachment(userId, mailboxId, messageId, attachmentId,
sendAsString = false)`: `text` response type behind `?sendAsString=true`,
otherwise `arraybuffer` wrapped in `Buffer.from`. -/
def Messages.downloadAttachment (m : Messages) (userId mailboxId : String)
    (messageId : Int) (attachmentId : String) (sendAsString : Bool)
    (transport : Transport) : CallResult :=
  let endpoint := "/users/" ++ userId ++ "/mailboxes/" ++ mailboxId ++ "/messages/"
    ++ toString messageId ++ "/attachments/" ++ attachmentId
  let query := if sendAsString then "?sendAsString=true" else ""
  let responseType := if sendAsString then ResponseType.text else ResponseType.arraybuffer
  let r := m.client.get (endpoint ++ query) [] responseType transport
  if sendAsString then r
  else
    { r with
      outcome := r.outcome.map fun d =>
        match d with
        | .bytes b => .bytes (bufferFrom b)
        | other => other }

/-- `src/api/Addresses.ts`. -/
structure Addresses where
  client : ApiClient

/-- `Addresses.resolveAddressInfo(address, params?)`: the address is passed
through `encodeURIComponent` before being substituted into the path. -/
def Addresses.resolveAddressInfo (a : Addresses) (address : String)
    (params : Option (List (String × QVal))) (transport : Transport) : CallResult :=
  a.client.get ("/addresses/resolve/" ++ encodeURIComponent address ++ optionalQuery params)
    [] .json transport

/-! ## Statefulness model for the dispatcher

Each public dispatcher method is embedded as a state transformer on the
`ApiClient` value; since no method body assigns to `apiKey` or `apiUrl`,
each returns the client unchanged, which is what the statelessness claim
is about. -/

/-- The argument vector of one public dispatcher call. -/
inductive DispatchCall where
  | get (endpoint : String) (headers : List (String × String)) (rt : ResponseType)
  | post (endpoint : String) (body : Option Json) (headers : List (String × String))
  | put (endpoint : String) (body : Option Json) (headers : List (String × String))
  | del (endpoint : String) (headers : List (String × String))
  | stream (endpoint : String) (params : Option (List (String × String)))

/-- Observable result of one dispatcher call: an HTTP round trip, or an
opened event-stream URL. -/
inductive ExecResult where
  | http (r : CallResult)
  | eventSource (url : String)

/-- Execute one dispatcher call as a state transformer on the client.  The
method bodies contain no assignment to `this.apiKey`/`this.apiUrl`, so the
resulting client state is the incoming one. -/
def ApiClient.exec (c : ApiClient) (call : DispatchCall) (transport : Transport) :
    ApiClient × ExecResult :=
  match call with
  | .get e h rt => (c, .http (c.get e h rt transport))
  | .post e b h => (c, .http (c.post e b h transport))
  | .put e b h => (c, .http (c.put e b h transport))
  | .del e h => (c, .http (c.del e h transport))
  | .stream e p => (c, .eventSource (c.streamUrl e p))

/-- Run a sequence of dispatcher calls, threading the client state. -/
def ApiClient.runCalls (c : ApiClient) :
    List (DispatchCall × Transport) → ApiClient × List ExecResult
  | [] => (c, [])
  | (a, t) :: rest =>
    let step := c.exec a t
    let further := step.1.runCalls rest
    (further.1, step.2 :: further.2)

/-! ## Helper lemmas -/

theorem strAppend_assoc (a b c : String) : a ++ b ++ c = a ++ (b ++ c) :=
  strExt (by simp [strData_append])

theorem strAppend_empty (s : String) : s ++ "" = s :=
  strExt (by simp [strData_append])

theorem strSingleton_data (c : Char) : (String.singleton c).data = [c] := rfl

/-- `isRejected` is true exactly on rejected outcomes. -/
def isRejected : Except RequestError ResponseData → Bool
  | .error _ => true
  | .ok _ => false

/-- A write of key `k` makes a later lookup of `k` find the written value. -/
theorem lookup_objInsert_self {α : Type} (base : List (String × α)) (k : String) (v : α) :
    List.lookup k (objInsert base (k, v)) = some v := by
  induction base with
  | nil => simp [objInsert, List.lookup]
  | cons hd tl ih =>
    obtain ⟨k', v'⟩ := hd
    by_cases h : k' = k
    · subst h
      simp [objInsert, List.lookup]
    · have hb : (k == k') = false := by
        simp [Ne.symm h]
      simp [objInsert, h, List.lookup, hb, ih]

/-- A write of key `k'` does not change lookups of a different key. -/
theorem lookup_objInsert_ne {α : Type} (base : List (String × α)) {k k' : String}
    (hne : k ≠ k') (v : α) :
    List.lookup k (objInsert base (k', v)) = List.lookup k base := by
  have hb : (k == k') = false := by
    simp [hne]
  induction base with
  | nil => simp [objInsert, List.lookup, hb]
  | cons hd tl ih =>
    obtain ⟨k0, v0⟩ := hd
    by_cases h : k0 = k'
    · subst h
      have hb2 : (k == k0) = false := hb
      simp [objInsert, List.lookup, hb2]
    · by_cases h2 : k = k0
      · subst h2
        simp [objInsert, h, List.lookup]
      · have hb3 : (k == k0) = false := by
          simp [h2]
        simp [objInsert, h, List.lookup, hb3, ih]

theorem lookup_eq_none_of_not_mem {α : Type} {k : String} :
    ∀ {l : List (String × α)}, k ∉ l.map Prod.fst → List.lookup k l = none := by
  intro l
  induction l with
  | nil => intro _; rfl
  | cons hd tl ih =>
    obtain ⟨k0, v0⟩ := hd
    intro h
    simp only [List.map_cons, List.mem_cons] at h
    push_neg at h
    have hb : (k == k0) = false := by
      simp [h.1]
    simp [List.lookup, hb, ih h.2]

/-- Lookup in a spread-merge `\x7b...base, ...extra\x7d`: keys of `extra`
override, other keys fall back to `base`. -/
theorem lookup_objMerge {α : Type} (base extra : List (String × α))
    (hnd : (extra.map Prod.fst).Nodup) (k : String) :
    List.lookup k (objMerge base extra)
      = ((List.lookup k extra).orElse (fun _ => List.lookup k base)) := by
  induction extra generalizing base with
  | nil => simp [objMerge, List.lookup, Option.orElse]
  | cons hd tl ih =>
    obtain ⟨k0, v0⟩ := hd
    simp only [List.map_cons, List.nodup_cons] at hnd
    have step : objMerge base ((k0, v0) :: tl) = objMerge (objInsert base (k0, v0)) tl := rfl
    rw [step, ih _ hnd.2]
    by_cases h : k = k0
    · subst h
      rw [lookup_eq_none_of_not_mem hnd.1, lookup_objInsert_self]
      simp [List.lookup, Option.orElse]
    · rw [lookup_objInsert_ne _ h]
      simp [List.lookup, Ne.symm h, Option.orElse,
        show (k == k0) = false from by simp [h]]

/-- Form-urlencoding is the identity on strings of form-safe characters. -/
theorem encodeChar_safe {c : Char} (h : isFormSafeChar c = true) :
    encodeChar c = String.singleton c := by
  have hc : ¬(c = ' ') := by
    intro h'
    subst h'
    exact absurd h (by decide)
  unfold encodeChar
  rw [if_neg hc, if_pos h]

theorem strConcat_map_singleton :
    ∀ l : List Char, strConcat (l.map String.singleton) = String.mk l := by
  intro l
  induction l with
  | nil => rfl
  | cons c cs ih =>
    apply strExt
    simp [strConcat, strData_append, ih, strSingleton_data]

theorem formUrlEncode_safe {s : String} (h : s.data.all isFormSafeChar = true) :
    formUrlEncode s = s := by
  unfold formUrlEncode
  have congrMap : s.data.map encodeChar = s.data.map String.singleton := by
    apply List.map_congr_left
    intro c hc
    exact encodeChar_safe (by
      have := List.all_eq_true.mp h c hc
      simpa using this)
  rw [congrMap, strConcat_map_singleton]

/-- Hex digits emitted by the percent encoder are never a slash. -/
theorem hexDigitChar_ne_slash (n : Nat) : hexDigitChar n ≠ '/' := by
  unfold hexDigitChar
  rcases n with _|_|_|_|_|_|_|_|_|_|_|_|_|_|_|_|n
  · decide
  · decide
  · decide
  · decide
  · decide
  · decide
  · decide
  · decide
  · decide
  · decide
  · decide
  · decide
  · decide
  · decide
  · decide
  · decide
  · simp [List.getD]

theorem slash_not_mem_hexByte (b : UInt8) : '/' ∉ (hexByte b).data := by
  unfold hexByte
  rw [strData_append]
  intro hmem
  rcases List.mem_append.mp hmem with h | h
  · rw [strSingleton_data] at h
    rcases List.mem_singleton.mp h with rfl2
    exact hexDigitChar_ne_slash _ rfl2.symm
  · rw [strSingleton_data] at h
    rcases List.mem_singleton.mp h with rfl2
    exact hexDigitChar_ne_slash _ rfl2.symm

theorem slash_not_mem_strConcat {l : List String}
    (h : ∀ s ∈ l, '/' ∉ s.data) : '/' ∉ (strConcat l).data := by
  induction l with
  | nil => intro hmem; cases hmem
  | cons s rest ih =>
    rw [strConcat, strData_append]
    intro hmem
    rcases List.mem_append.mp hmem with hm | hm
    · exact h s (List.mem_cons_self s rest) hm
    · exact ih (fun t ht => h t (List.mem_cons_of_mem s ht)) hm

theorem slash_not_mem_pctEncodeBytes (bs : List UInt8) :
    '/' ∉ (pctEncodeBytes bs).data := by
  unfold pctEncodeBytes
  apply slash_not_mem_strConcat
  intro s hs
  rcases List.mem_map.mp hs with ⟨b, _, rfl2⟩
  rw [← rfl2, strData_append]
  intro hmem
  rcases List.mem_append.mp hmem with hm | hm
  · exact absurd (List.mem_singleton.mp hm) (by decide)
  · exact slash_not_mem_hexByte b hm

theorem slash_not_mem_encodeURIChar (c : Char) : '/' ∉ (encodeURIChar c).data := by
  unfold encodeURIChar
  by_cases h : isUriUnreservedChar c = true
  · rw [if_pos h, strSingleton_data]
    intro hmem
    have heq := List.mem_singleton.mp hmem
    rw [← heq] at h
    exact absurd h (by decide)
  · rw [if_neg h]
    exact slash_not_mem_pctEncodeBytes _

/-- `encodeURIComponent` never leaves a raw slash in its output. -/
theorem slash_not_mem_encodeURIComponent (s : String) :
    '/' ∉ (encodeURIComponent s).data := by
  unfold encodeURIComponent
  apply slash_not_mem_strConcat
  intro t ht
  rcases List.mem_map.mp ht with ⟨c, _, rfl2⟩
  rw [← rfl2]
  exact slash_not_mem_encodeURIChar c

theorem dropLast_append_getLast_slash :
    ∀ l : List Char, l.getLast? = some '/' → l.dropLast ++ ['/'] = l := by
  intro l
  induction l with
  | nil => intro h; simp at h
  | cons c rest ih =>
    cases rest with
    | nil =>
      intro h
      simp only [List.getLast?_singleton, Option.some.injEq] at h
      subst h
      rfl
    | cons d tl =>
      intro h
      rw [List.getLast?_cons_cons] at h
      show c :: (List.dropLast (d :: tl) ++ ['/']) = c :: d :: tl
      rw [ih h]

/-- When the configured URL ends in a slash, the stored URL is the input
minus that final slash. -/
theorem create_apiUrl_strip (apiKey apiUrl : String)
    (h : strEndsWithSlash apiUrl = true) :
    (ApiClient.create apiKey apiUrl).apiUrl ++ "/" = apiUrl := by
  have hl : apiUrl.data.getLast? = some '/' := by
    unfold strEndsWithSlash at h
    cases hq : apiUrl.data.getLast? with
    | none => rw [hq] at h; cases h
    | some c =>
      rw [hq] at h
      simp at h
      rw [h]
  simp only [ApiClient.create, h, if_true]
  apply strExt
  rw [strData_append]
  exact dropLast_append_getLast_slash _ hl

/-! ## Claim C1 -/

/-- Claim C1, counterexample: for the non-2xx response with status 500 and
the unparsable body "oops", the call does not fail with an error carrying
the status code and the raw body text; it fails with the bare JSON parse
failure, which is distinct from every status-carrying error. -/
theorem claimC1_counterexample :
    (ApiClient.request (ApiClient.create "T" "https://h/api") "GET" "/x" none [] .json
        (fun _ => ⟨500, asciiBytes "oops"⟩)).outcome = .error .parseFailure
    ∧ RequestError.parseFailure ≠ .httpError 500 (.str "oops") := by
  constructor
  · rfl
  · intro hcontra
    exact nomatch hcontra

/-- Claim C1 (amended): for every dispatcher call whose HTTP response has a
non-2xx status, when the response body parses as JSON the call fails with an
error carrying the numeric status code together with the parsed error
description; when that parsing fails the call instead fails with the JSON
parse error, which carries neither the status code nor the body text. -/
theorem claimC1_main (c : ApiClient) (method endpoint : String) (body : Option Json)
    (headers : List (String × String)) (rt : ResponseType) (resp : HttpResponse)
    (h : resp.ok = false) :
    (∀ j, jsonParse (utf8DecodeReplace resp.body) = some j →
      (c.request method endpoint body headers rt (fun _ => resp)).outcome
        = .error (.httpError resp.status j))
    ∧ (jsonParse (utf8DecodeReplace resp.body) = none →
      (c.request method endpoint body headers rt (fun _ => resp)).outcome
        = .error .parseFailure) := by
  constructor
  · intro j hj
    simp [ApiClient.request, ApiClient.settle, h, hj]
  · intro hj
    simp [ApiClient.request, ApiClient.settle, h, hj]

/-- Claim C1, witness: a 500 response with the JSON body
`\x7b"error":"oops"\x7d` rejects with the error carrying status 500 and the
parsed description. -/
theorem claimC1_witness :
    (HttpResponse.ok ⟨500, asciiBytes "\x7b\"error\":\"oops\"\x7d"⟩ = false)
    ∧ (ApiClient.request (ApiClient.create "T" "https://h/api") "GET" "/x" none [] .json
        (fun _ => ⟨500, asciiBytes "\x7b\"error\":\"oops\"\x7d"⟩)).outcome
        = .error (.httpError 500 (.obj [("error", .str "oops")])) :=
  ⟨by decide, (claimC1_main _ "GET" "/x" none [] .json _ (by decide)).1 _ (by rfl)⟩

/-! ## Claim C2 -/

/-- Claim C2: for every dispatcher call and every non-2xx response, the
returned promise rejects — whatever the request parameters, the requested
response type, and whether or not the body parses as JSON. -/
theorem claimC2_main (c : ApiClient) (method endpoint : String) (body : Option Json)
    (headers : List (String × String)) (rt : ResponseType) (resp : HttpResponse)
    (h : resp.ok = false) :
    isRejected (c.request method endpoint body headers rt (fun _ => resp)).outcome = true := by
  cases hj : jsonParse (utf8DecodeReplace resp.body) <;>
    simp [ApiClient.request, ApiClient.settle, h, hj, isRejected]

/-- Claim C2, witness: a 404 response rejects both with a JSON body and with
a non-JSON body. -/
theorem claimC2_witness :
    (HttpResponse.ok ⟨404, asciiBytes "\x7b\"ok\":false\x7d"⟩ = false)
    ∧ isRejected ((ApiClient.create "T" "https://h/api").request "GET" "/x" none [] .json
        (fun _ => ⟨404, asciiBytes "\x7b\"ok\":false\x7d"⟩)).outcome = true
    ∧ isRejected ((ApiClient.create "T" "https://h/api").request "GET" "/x" none [] .json
        (fun _ => ⟨404, asciiBytes "nope"⟩)).outcome = true :=
  ⟨by decide,
   claimC2_main _ "GET" "/x" none [] .json _ (by decide),
   claimC2_main _ "GET" "/x" none [] .json _ (by decide)⟩

/-! ## Claim C3 -/

/-- On key/value pairs made of form-safe characters the `URLSearchParams`
serialization is the plain `key=value` join. -/
theorem uspToString_safe (params : List (String × QVal))
    (h : ∀ kv ∈ params, kv.1.data.all isFormSafeChar = true
          ∧ (QVal.toJsString kv.2).data.all isFormSafeChar = true) :
    uspToString params
      = sepJoin "&" (params.map (fun kv => kv.1 ++ "=" ++ QVal.toJsString kv.2)) := by
  unfold uspToString
  congr 1
  apply List.map_congr_left
  intro kv hkv
  rw [formUrlEncode_safe (h kv hkv).1, formUrlEncode_safe (h kv hkv).2]

/-- Claim C3, counterexample: a key that is present with the value
`undefined` is not excluded from the query string — it is serialized as the
literal text `undefined` (the claim says such keys are never emitted so). -/
theorem claimC3_counterexample :
    (Mailboxes.listMailboxes ⟨ApiClient.create "T" "https://h/api"⟩ "u1"
        (some [("specialUse", QVal.undef)])
        (fun _ => ⟨200, asciiBytes "\x7b\x7d"⟩)).sent.map (fun r => r.url)
      = ["https://h/api/users/u1/mailboxes?specialUse=undefined"] := by rfl

/-- Claim C3 (amended): for every query-parameter object passed to a
resource-module operation, the keys that appear in the object are serialized
in the order supplied, with boolean values as the literals `true`/`false`,
numbers as decimal text, and a key present with value `undefined` as the
literal text `undefined` (keys absent from the object are absent from the
query string, since serialization maps exactly over the object's entries). -/
theorem claimC3_main (m : Mailboxes) (userId : String)
    (params : List (String × QVal)) (transport : Transport)
    (h : ∀ kv ∈ params, kv.1.data.all isFormSafeChar = true
          ∧ (QVal.toJsString kv.2).data.all isFormSafeChar = true) :
    ((m.listMailboxes userId (some params) transport).sent.map (fun r => r.url)
      = [m.client.apiUrl ++ ("/users/" ++ userId ++ "/mailboxes"
          ++ ("?" ++ sepJoin "&" (params.map (fun kv => kv.1 ++ "=" ++ QVal.toJsString kv.2))))])
    ∧ QVal.toJsString .undef = "undefined"
    ∧ QVal.toJsString (.bool true) = "true"
    ∧ QVal.toJsString (.bool false) = "false"
    ∧ (∀ n : Int, QVal.toJsString (.num n) = toString n) := by
  refine ⟨?_, rfl, rfl, rfl, fun n => rfl⟩
  have hs := uspToString_safe params h
  simp [Mailboxes.listMailboxes, ApiClient.get, ApiClient.request, ApiClient.buildRequest,
    optionalQuery, hs]

/-- Claim C3, witness: the spec's example
`\x7bshowHidden: true, counters: true, sizes: true\x7d` serializes to
`?showHidden=true&counters=true&sizes=true` in the supplied order. -/
theorem claimC3_witness :
    (∀ kv ∈ [("showHidden", QVal.bool true), ("counters", QVal.bool true), ("sizes", QVal.bool true)],
        kv.1.data.all isFormSafeChar = true
          ∧ (QVal.toJsString kv.2).data.all isFormSafeChar = true)
    ∧ (Mailboxes.listMailboxes ⟨ApiClient.create "T" "https://h/api"⟩ "12345"
        (some [("showHidden", QVal.bool true), ("counters", QVal.bool true), ("sizes", QVal.bool true)])
        (fun _ => ⟨200, asciiBytes "\x7b\x7d"⟩)).sent.map (fun r => r.url)
      = ["https://h/api" ++ ("/users/" ++ "12345" ++ "/mailboxes"
          ++ ("?" ++ sepJoin "&" ([("showHidden", QVal.bool true), ("counters", QVal.bool true),
              ("sizes", QVal.bool true)].map (fun kv => kv.1 ++ "=" ++ QVal.toJsString kv.2))))] :=
  ⟨by decide,
   (claimC3_main ⟨ApiClient.create "T" "https://h/api"⟩ "12345" _ _ (by decide)).1⟩

/-! ## Claim C4 -/

/-- Claim C4: constructing the client with token "T" and base URL
"https://h/api", then calling the mailbox-list operation for user "12345"
with no parameters, issues exactly one GET request to
"https://h/api/users/12345/mailboxes" with the `X-Access-Token` header set
to "T", and resolves to the parsed JSON response body unchanged when the
transport answers `\x7bsuccess:true,results:[]\x7d`. -/
theorem claimC4_main :
    ((Mailboxes.listMailboxes ⟨ApiClient.create "T" "https://h/api"⟩ "12345" none
        (fun _ => ⟨200, asciiBytes "\x7b\"success\":true,\"results\":[]\x7d"⟩)).sent
      = [⟨"GET", "https://h/api/users/12345/mailboxes",
          [("Content-Type", "application/json"), ("X-Access-Token", "T")], none⟩])
    ∧ (Mailboxes.listMailboxes ⟨ApiClient.create "T" "https://h/api"⟩ "12345" none
        (fun _ => ⟨200, asciiBytes "\x7b\"success\":true,\"results\":[]\x7d"⟩)).outcome
      = .ok (.json (.obj [("success", .bool true), ("results", .arr [])])) :=
  ⟨rfl, rfl⟩

/-! ## Claim C5 -/

/-- Claim C5: for every operation requesting the raw-bytes response shape —
`downloadAttachment` with `sendAsString = false` and `getMessageSource` —
and for every 2xx response, the byte content of the returned value is the
byte content of the server's response body, whatever those bytes are. -/
theorem claimC5_main (cl : ApiClient) (userId mailboxId attachmentId : String)
    (messageId : Int) (params : Option (List (String × QVal))) (resp : HttpResponse)
    (h : resp.ok = true) :
    ((Messages.downloadAttachment ⟨cl⟩ userId mailboxId messageId attachmentId false
        (fun _ => resp)).outcome = .ok (.bytes resp.body))
    ∧ (Messages.getMessageSource ⟨cl⟩ userId mailboxId messageId params
        (fun _ => resp)).outcome = .ok (.bytes resp.body) := by
  constructor <;>
    simp [Messages.downloadAttachment, Messages.getMessageSource, ApiClient.get,
      ApiClient.request, ApiClient.settle, h, bufferFrom, Except.map]

/-- Claim C5, witness: a synthetic binary body `[0, 255, 16]` round-trips
through the attachment download unchanged. -/
theorem claimC5_witness :
    (HttpResponse.ok ⟨200, [0, 255, 16]⟩ = true)
    ∧ (Messages.downloadAttachment ⟨ApiClient.create "T" "https://h/api"⟩ "u" "mb" 7 "att" false
        (fun _ => ⟨200, [0, 255, 16]⟩)).outcome = .ok (.bytes [0, 255, 16]) :=
  ⟨by decide, (claimC5_main _ "u" "mb" "att" 7 none _ (by decide)).1⟩

/-! ## Claim C6 -/

/-- Claim C6: the outgoing headers are the fixed defaults (content-type
`application/json`, credential under `X-Access-Token`) spread-merged with
the caller's `extraHeaders`: for every key, the sent value is the
caller-supplied one when the key occurs in `extraHeaders`, and the default
otherwise. -/
theorem claimC6_main (c : ApiClient) (method endpoint : String) (body : Option Json)
    (extra : List (String × String)) (hnd : (extra.map Prod.fst).Nodup) (k : String) :
    List.lookup k (c.buildRequest method endpoint body extra).headers
      = ((List.lookup k extra).orElse (fun _ => List.lookup k c.defaultHeaders)) :=
  lookup_objMerge _ _ hnd k

/-- Claim C6, witness: a caller-supplied `X-Access-Token` header overrides
the default added by the dispatcher. -/
theorem claimC6_witness :
    (([("X-Access-Token", "OVR")] : List (String × String)).map Prod.fst).Nodup
    ∧ List.lookup "X-Access-Token"
        ((ApiClient.create "T" "B").buildRequest "GET" "/x" none [("X-Access-Token", "OVR")]).headers
      = ((List.lookup "X-Access-Token" ([("X-Access-Token", "OVR")] : List (String × String))).orElse
          (fun _ => List.lookup "X-Access-Token" (ApiClient.create "T" "B").defaultHeaders)) :=
  ⟨by simp, claimC6_main (ApiClient.create "T" "B") "GET" "/x" none _ (by simp) _⟩

/-! ## Claim C7 -/

/-- Claim C7: the address argument of `resolveAddressInfo` is passed through
`encodeURIComponent` before being substituted into the path template, and the
encoded segment never contains a raw `/` (for example `"a/b"` becomes
`"a%2Fb"`). -/
theorem claimC7_main (a : Addresses) (address : String)
    (params : Option (List (String × QVal))) (transport : Transport) :
    ((a.resolveAddressInfo address params transport).sent.map (fun r => r.url)
      = [a.client.apiUrl ++ ("/addresses/resolve/" ++ encodeURIComponent address
          ++ optionalQuery params)])
    ∧ '/' ∉ (encodeURIComponent address).data
    ∧ encodeURIComponent "a/b" = "a%2Fb" :=
  ⟨rfl, slash_not_mem_encodeURIComponent address, by rfl⟩

/-! ## Claim C8 -/

/-- Claim C8: every dispatcher operation leaves the two configuration fields
unchanged, and for any sequence of calls on one dispatcher each call's
result (hence its constructed URL and auth header) is a function of the
construction-time configuration and that call's own arguments only, never
of prior calls. -/
theorem claimC8_main (c : ApiClient) (calls : List (DispatchCall × Transport)) :
    (c.runCalls calls).1 = c
    ∧ (c.runCalls calls).2 = calls.map (fun p => (c.exec p.1 p.2).2) := by
  have hexec : ∀ (a : DispatchCall) (t : Transport), (c.exec a t).1 = c := by
    intro a t
    cases a <;> rfl
  induction calls with
  | nil => exact ⟨rfl, rfl⟩
  | cons p rest ih =>
    obtain ⟨a, t⟩ := p
    constructor
    · simp [ApiClient.runCalls, hexec, ih.1]
    · simp [ApiClient.runCalls, hexec, ih.1, ih.2]

/-! ## Claim C9 -/

/-- Claim C9, counterexample: constructing the dispatcher from an empty
credential and an empty base endpoint succeeds and stores both empty strings
— the constructor has no failure path, contradicting the claim that
construction fails on empty inputs. -/
theorem claimC9_counterexample :
    ApiClient.create "" "" = { apiKey := "", apiUrl := "" } := rfl

/-- Claim C9 (amended): construction never fails and performs no validation
(in particular it accepts empty inputs) and no network call (the constructor
consults no transport); the credential is stored verbatim, and the base
endpoint is stored with a single trailing slash stripped — when the input
ends in a slash the stored URL plus "/" is the input, otherwise the stored
URL is the input unchanged. -/
theorem claimC9_main (apiKey apiUrl : String) :
    (ApiClient.create apiKey apiUrl).apiKey = apiKey
    ∧ (strEndsWithSlash apiUrl = true → (ApiClient.create apiKey apiUrl).apiUrl ++ "/" = apiUrl)
    ∧ (strEndsWithSlash apiUrl = false → (ApiClient.create apiKey apiUrl).apiUrl = apiUrl) := by
  refine ⟨rfl, fun h => create_apiUrl_strip apiKey apiUrl h, fun h => ?_⟩
  simp [ApiClient.create, h]

/-- Claim C9, witness: "https://h/api/" is stored as "https://h/api". -/
theorem claimC9_witness :
    (strEndsWithSlash "https://h/api/" = true)
    ∧ (ApiClient.create "T" "https://h/api/").apiUrl ++ "/" = "https://h/api/" :=
  ⟨by decide, (claimC9_main "T" "https://h/api/").2.1 (by decide)⟩

/-! ## Claim C10 -/

/-- Claim C10: for `Mailboxes.listMailboxes` and `Messages.listMessages`, a
provided-but-empty parameter object yields a path ending in a bare `?`
while omitting the parameter object yields the path with no `?`, whereas
`Users.listUsers` omits the `?` in both cases. -/
theorem claimC10_main (cl : ApiClient) (userId mailboxId : String) (transport : Transport) :
    ((Mailboxes.listMailboxes ⟨cl⟩ userId (some []) transport).sent.map (fun r => r.url)
      = [cl.apiUrl ++ ("/users/" ++ userId ++ "/mailboxes" ++ "?")])
    ∧ ((Mailboxes.listMailboxes ⟨cl⟩ userId none transport).sent.map (fun r => r.url)
      = [cl.apiUrl ++ ("/users/" ++ userId ++ "/mailboxes")])
    ∧ ((Messages.listMessages ⟨cl⟩ userId mailboxId (some []) transport).sent.map (fun r => r.url)
      = [cl.apiUrl ++ ("/users/" ++ userId ++ "/mailboxes/" ++ mailboxId ++ "/messages" ++ "?")])
    ∧ ((Messages.listMessages ⟨cl⟩ userId mailboxId none transport).sent.map (fun r => r.url)
      = [cl.apiUrl ++ ("/users/" ++ userId ++ "/mailboxes/" ++ mailboxId ++ "/messages")])
    ∧ ((Users.listUsers ⟨cl⟩ (some []) transport).sent.map (fun r => r.url)
      = [cl.apiUrl ++ "/users"])
    ∧ ((Users.listUsers ⟨cl⟩ none transport).sent.map (fun r => r.url)
      = [cl.apiUrl ++ "/users"]) := by
  refine ⟨rfl, ?_, rfl, ?_, rfl, rfl⟩
  · simp [Mailboxes.listMailboxes, ApiClient.get, ApiClient.request, ApiClient.buildRequest,
      optionalQuery, strAppend_empty]
  · simp [Messages.listMessages, ApiClient.get, ApiClient.request, ApiClient.buildRequest,
      optionalQuery, strAppend_empty]
